import Mathlib

/-!
Shallow embedding of `src/examples/ffi/c_callback_example.c` (Atlas FFI
callback example library).

Modelling conventions:
* C `double` values are modelled as exact rationals `ℚ`; the claims under
  study are structural (which value is returned, loop bounds, accumulation
  order), so the arithmetic is taken exactly.
* C `int` values are modelled as `ℤ`; a C counting loop `for (i = 0; i < n;
  i++)` running over an `int` bound `n` performs `n.toNat` iterations, which
  is faithful (`toNat` of a negative bound is `0` iterations).
* The special floating-point classes needed by `call_with_validation`
  (`isnan` / `isinf`) are modelled by the inductive type `FpVal` carrying the
  value class of a double.
* Where a claim is about how often / in which order a callback is invoked,
  the embedding additionally returns the list of arguments passed to the
  callback, in invocation order (the C functions are otherwise pure in their
  numeric results; `printf` logging is advisory and not modelled).
-/

namespace CCallbackExample

/-- The tolerance `1e-10` used by `find_root` for both the derivative guard
and the convergence test. -/
def tol : ℚ := 1 / 10 ^ 10

/-- `call_with_double` from the source: calls the callback once with `value`
and passes its result through.  The second component is the trace of
arguments the callback was invoked with. -/
def call_with_double (callback : ℚ → ℚ) (value : ℚ) : ℚ × List ℚ :=
  let result := callback value
  (result, [value])

/-- `call_with_two_doubles` from the source: calls the binary callback once
with `(a, b)` and passes its result through, with the invocation trace. -/
def call_with_two_doubles (callback : ℚ → ℚ → ℚ) (a b : ℚ) : ℚ × List (ℚ × ℚ) :=
  let result := callback a b
  (result, [(a, b)])

/-- The loop body of `map_array`: starting at index `i` with `fuel` remaining
iterations, repeatedly set `array[i] = callback(array[i])`.  Returns the
final array together with the trace of arguments passed to the callback. -/
def map_array_go (callback : ℚ → ℚ) (array : List ℚ) (i : ℕ) :
    (fuel : ℕ) → List ℚ × List ℚ
  | 0 => (array, [])
  | fuel + 1 =>
    let v := array.getD i 0
    let rest := map_array_go callback (array.set i (callback v)) (i + 1) fuel
    (rest.1, v :: rest.2)

/-- `map_array` from the source: `for (i = 0; i < length; i++) array[i] =
callback(array[i]);`.  The `length` argument is the C `int` parameter,
separate from the buffer itself. -/
def map_array (callback : ℚ → ℚ) (array : List ℚ) (length : ℤ) :
    List ℚ × List ℚ :=
  map_array_go callback array 0 length.toNat

/-- The accumulation loop of `integrate`: `for (i = 1; i < steps; i++)
{ x = a + i * h; sum += function(x); }`, run with `fuel` remaining
iterations starting at index `i`. -/
def integrate_go (f : ℚ → ℚ) (a h : ℚ) (i : ℕ) (sum : ℚ) : (fuel : ℕ) → ℚ
  | 0 => sum
  | fuel + 1 => integrate_go f a h (i + 1) (sum + f (a + (i : ℚ) * h)) fuel

/-- `integrate` from the source: composite trapezoidal rule with
`h = (b - a) / steps`, initial `sum = (f(a) + f(b)) / 2`, interior points
accumulated for `i = 1 .. steps-1`, returning `sum * h`. -/
def integrate (f : ℚ → ℚ) (a b : ℚ) (steps : ℤ) : ℚ :=
  let h := (b - a) / (steps : ℚ)
  let sum := (f a + f b) / 2
  integrate_go f a h 1 sum (steps - 1).toNat * h

/-- The iteration loop of `find_root`.  Each executed iteration invokes `f`
once and `df` once; the second component counts callback invocations.  Both
`break` statements of the source leave `x` unchanged (the assignment
`x = x_new` happens only after the convergence test fails). -/
def find_root_go (f df : ℚ → ℚ) (x : ℚ) : (fuel : ℕ) → ℚ × ℕ
  | 0 => (x, 0)
  | fuel + 1 =>
    let fx := f x
    let dfx := df x
    if |dfx| < tol then (x, 2)
    else
      let x_new := x - fx / dfx
      if |x_new - x| < tol then (x, 2)
      else
        let rest := find_root_go f df x_new fuel
        (rest.1, rest.2 + 2)

/-- `find_root` from the source: Newton iteration starting at `x0`, at most
`max_iter` iterations. -/
def find_root (f df : ℚ → ℚ) (x0 : ℚ) (max_iter : ℤ) : ℚ :=
  (find_root_go f df x0 max_iter.toNat).1

/-- Number of callback invocations (`f` and `df` combined) performed by
`find_root`. -/
def find_root_calls (f df : ℚ → ℚ) (x0 : ℚ) (max_iter : ℤ) : ℕ :=
  (find_root_go f df x0 max_iter.toNat).2

/-- Division that fails on a zero divisor, used to express that `find_root`
never divides by zero. -/
def div_checked (a b : ℚ) : Option ℚ :=
  if b = 0 then none else some (a / b)

/-- `find_root_go` with every division routed through `div_checked`:
returns `none` if any iteration would divide by zero. -/
def find_root_go_checked (f df : ℚ → ℚ) (x : ℚ) : (fuel : ℕ) → Option ℚ
  | 0 => some x
  | fuel + 1 =>
    let fx := f x
    let dfx := df x
    if |dfx| < tol then some x
    else
      match div_checked fx dfx with
      | none => none
      | some q =>
        let x_new := x - q
        if |x_new - x| < tol then some x
        else find_root_go_checked f df x_new fuel

/-- `find_root` with checked division. -/
def find_root_checked (f df : ℚ → ℚ) (x0 : ℚ) (max_iter : ℤ) : Option ℚ :=
  find_root_go_checked f df x0 max_iter.toNat

/-- The accumulation loop of `sum_callback_results`:
`for (i = 0; i < count; i++) sum += callback(i);` (the `int` result of the
callback is converted to `double` when added). -/
def sum_callback_results_go (callback : ℤ → ℤ) (i : ℕ) (sum : ℚ) :
    (fuel : ℕ) → ℚ
  | 0 => sum
  | fuel + 1 =>
    sum_callback_results_go callback (i + 1) (sum + ((callback (i : ℤ) : ℤ) : ℚ)) fuel

/-- `sum_callback_results` from the source: sums `callback(0) .. callback
(count-1)` into a double accumulator starting from `0.0`. -/
def sum_callback_results (callback : ℤ → ℤ) (count : ℤ) : ℚ :=
  sum_callback_results_go callback 0 0 count.toNat

/-- Value class of an IEEE-754 double: a finite value, NaN, or an
infinity of either sign. -/
inductive FpVal where
  | finite (val : ℚ)
  | nan
  | posinf
  | neginf
deriving DecidableEq

/-- C `isnan` on the value-class model. -/
def FpVal.isnan : FpVal → Bool
  | .nan => true
  | _ => false

/-- C `isinf` on the value-class model (true for either infinity). -/
def FpVal.isinf : FpVal → Bool
  | .posinf => true
  | .neginf => true
  | _ => false

/-- `call_with_validation` from the source: invoke the callback; if the
result is NaN or infinite return the sentinel `-1.0`, otherwise return the
result unchanged. -/
def call_with_validation (callback : FpVal → FpVal) (value : FpVal) : FpVal :=
  let result := callback value
  if result.isnan || result.isinf then FpVal.finite (-1) else result

/-- `test_double_function` from the source: multiplies by 2. -/
def test_double_function (x : ℚ) : ℚ := x * 2.0

/-- `test_add_function` from the source: adds two numbers. -/
def test_add_function (a b : ℚ) : ℚ := a + b

end CCallbackExample

namespace CCallbackExample

/-! ### Loop / fold correspondence lemmas -/

theorem integrate_go_eq_foldl (f : ℚ → ℚ) (a h : ℚ) :
    ∀ (fuel i : ℕ) (sum : ℚ),
      integrate_go f a h i sum fuel =
        (List.range' i fuel).foldl (fun (s : ℚ) (j : ℕ) => s + f (a + (j : ℚ) * h)) sum := by
  intro fuel
  induction fuel with
  | zero => intro i sum; simp [integrate_go]
  | succ n ih =>
    intro i sum
    rw [List.range'_succ]
    simp only [integrate_go, List.foldl_cons, ih]

theorem sum_callback_results_go_eq_foldl (callback : ℤ → ℤ) :
    ∀ (fuel i : ℕ) (sum : ℚ),
      sum_callback_results_go callback i sum fuel =
        (List.range' i fuel).foldl
          (fun (s : ℚ) (j : ℕ) => s + ((callback (j : ℤ) : ℤ) : ℚ)) sum := by
  intro fuel
  induction fuel with
  | zero => intro i sum; simp [sum_callback_results_go]
  | succ n ih =>
    intro i sum
    rw [List.range'_succ]
    simp only [sum_callback_results_go, List.foldl_cons, ih]

end CCallbackExample

namespace CCallbackExample

/-- C2: `integrate(f, a, b, steps)` with `steps ≥ 1` computes
`h = (b - a)/steps` and returns `((f(a)+f(b))/2 + f(a+1·h) + ⋯ +
f(a+(steps-1)·h)) · h`, the interior terms accumulated left-to-right
(ascending `i`); for `steps = 1` this degenerates to
`(f(a)+f(b))/2 · (b-a)`. -/
theorem integrate_trapezoidal_spec (f : ℚ → ℚ) (a b : ℚ) (steps : ℤ)
    (hsteps : 1 ≤ steps) :
    integrate f a b steps =
      ((List.range' 1 (steps - 1).toNat).foldl
        (fun (s : ℚ) (j : ℕ) => s + f (a + (j : ℚ) * ((b - a) / (steps : ℚ))))
        ((f a + f b) / 2)) * ((b - a) / (steps : ℚ)) ∧
    (steps = 1 → integrate f a b steps = (f a + f b) / 2 * (b - a)) := by
  constructor
  · rw [show integrate f a b steps =
        integrate_go f a ((b - a) / (steps : ℚ)) 1 ((f a + f b) / 2)
          (steps - 1).toNat * ((b - a) / (steps : ℚ)) from rfl]
    rw [integrate_go_eq_foldl]
  · rintro rfl
    unfold integrate
    norm_num [integrate_go]

/-- Witness for C2 at `f = id`, `a = 0`, `b = 1`, `steps = 2`. -/
theorem integrate_trapezoidal_spec_witness :
    (1 : ℤ) ≤ 2 ∧
    (integrate (fun x => x) 0 1 2 =
      ((List.range' 1 ((2 : ℤ) - 1).toNat).foldl
        (fun (s : ℚ) (j : ℕ) => s + (fun x => x) (0 + (j : ℚ) * ((1 - 0) / ((2 : ℤ) : ℚ))))
        (((fun x => x) (0 : ℚ) + (fun x => x) (1 : ℚ)) / 2)) *
          ((1 - 0) / ((2 : ℤ) : ℚ)) ∧
    ((2 : ℤ) = 1 → integrate (fun x => x) 0 1 2 =
      ((fun x => x) (0 : ℚ) + (fun x => x) (1 : ℚ)) / 2 * (1 - 0))) :=
  ⟨by norm_num, integrate_trapezoidal_spec (fun x => x) 0 1 2 (by norm_num)⟩

/-- C6: `integrate(f, a, a, steps)` returns exactly `0` for any
`steps ≥ 1` (the width `h = (a-a)/steps` is `0` and the final result is
`sum * h`). -/
theorem integrate_same_bounds (f : ℚ → ℚ) (a : ℚ) (steps : ℤ)
    (hsteps : 1 ≤ steps) :
    integrate f a a steps = 0 := by
  unfold integrate
  simp

/-- Witness for C6 at `f = const 1`, `a = 3`, `steps = 1`. -/
theorem integrate_same_bounds_witness :
    (1 : ℤ) ≤ 1 ∧ integrate (fun _ => 1) 3 3 1 = 0 :=
  ⟨by norm_num, integrate_same_bounds (fun _ => 1) 3 1 (by norm_num)⟩

/-- C5: `sum_callback_results(c, count)` returns the double sum
`c(0) + c(1) + ⋯ + c(count-1)` accumulated in ascending index order
(left fold over the index range), returns `0` whenever `count ≤ 0`, and
with the identity callback and `count = 5` returns `10`. -/
theorem sum_callback_results_spec (callback : ℤ → ℤ) (count : ℤ) :
    sum_callback_results callback count =
      (List.range count.toNat).foldl
        (fun (s : ℚ) (j : ℕ) => s + ((callback (j : ℤ) : ℤ) : ℚ)) 0 ∧
    (count ≤ 0 → sum_callback_results callback count = 0) ∧
    sum_callback_results (fun i => i) 5 = 10 := by
  refine ⟨?_, ?_, by norm_num [sum_callback_results, sum_callback_results_go]⟩
  · unfold sum_callback_results
    rw [sum_callback_results_go_eq_foldl, List.range_eq_range']
  · intro hcount
    unfold sum_callback_results
    rw [Int.toNat_of_nonpos hcount]
    rfl

/-- Witness for C5 at the identity callback and `count = -3`. -/
theorem sum_callback_results_spec_witness :
    (-3 : ℤ) ≤ 0 ∧ sum_callback_results (fun i => i) (-3) = 0 :=
  ⟨by norm_num, (sum_callback_results_spec (fun i => i) (-3)).2.1 (by norm_num)⟩

end CCallbackExample

namespace CCallbackExample

/-! ### `map_array` lemmas -/

theorem getD_append_cons_length (l : List ℚ) (v : ℚ) (r : List ℚ) :
    (l ++ v :: r).getD l.length 0 = v := by
  induction l with
  | nil => rfl
  | cons a l ih => simpa using ih

theorem set_append_cons_length (l : List ℚ) (v w : ℚ) (r : List ℚ) :
    (l ++ v :: r).set l.length w = l ++ w :: r := by
  induction l with
  | nil => rfl
  | cons a l ih => simpa using ih

theorem map_array_go_spec (callback : ℚ → ℚ) :
    ∀ (rest done : List ℚ),
      map_array_go callback (done ++ rest) done.length rest.length =
        (done ++ rest.map callback, rest) := by
  intro rest
  induction rest with
  | nil => intro done; simp [map_array_go]
  | cons v r ih =>
    intro done
    simp only [List.length_cons, map_array_go, getD_append_cons_length,
      set_append_cons_length]
    have hdone : done ++ callback v :: r = (done ++ [callback v]) ++ r := by
      simp
    have hlen : done.length + 1 = (done ++ [callback v]).length := by
      simp
    rw [hdone, hlen, ih (done ++ [callback v])]
    simp

/-- C3: `map_array(f, B, n)` with `n` the length of the buffer `B` replaces
every element `B[i]` by `f(B[i])` in place; the callback is invoked exactly
on the original elements in ascending index order (the invocation trace is
`B` itself), the length is unchanged, and on the empty buffer (`n = 0`)
nothing is invoked and nothing changes. -/
theorem map_array_spec (callback : ℚ → ℚ) (B : List ℚ) :
    (map_array callback B (B.length : ℤ)).1 = B.map callback ∧
    (map_array callback B (B.length : ℤ)).2 = B ∧
    (map_array callback B (B.length : ℤ)).1.length = B.length ∧
    map_array callback [] 0 = ([], []) := by
  have h := map_array_go_spec callback B []
  simp only [List.nil_append, List.length_nil] at h
  have hmain : map_array callback B (B.length : ℤ) = (B.map callback, B) := by
    unfold map_array
    rw [Int.toNat_natCast, h]
  refine ⟨by rw [hmain], by rw [hmain], by rw [hmain]; simp, ?_⟩
  rfl

/-- C10: `map_array(f, B, length)` with a negative `length` argument
performs no callback invocation (empty trace) and leaves the buffer
unchanged. -/
theorem map_array_neg_length (callback : ℚ → ℚ) (B : List ℚ) (len : ℤ)
    (hlen : len < 0) :
    map_array callback B len = (B, []) := by
  unfold map_array
  rw [Int.toNat_of_nonpos (le_of_lt hlen)]
  rfl

/-- Witness for C10 at `length = -1`. -/
theorem map_array_neg_length_witness :
    (-1 : ℤ) < 0 ∧ map_array (fun x => x * 2) [1, 2, 3] (-1) = ([1, 2, 3], []) :=
  ⟨by norm_num, map_array_neg_length (fun x => x * 2) [1, 2, 3] (-1) (by norm_num)⟩

end CCallbackExample

namespace CCallbackExample

/-! ### `find_root` theorems -/

/-- C7: `find_root(f, df, x0, 0)` returns `x0` unchanged and performs zero
callback invocations. -/
theorem find_root_zero_iterations (f df : ℚ → ℚ) (x0 : ℚ) :
    find_root f df x0 0 = x0 ∧ find_root_calls f df x0 0 = 0 :=
  ⟨rfl, rfl⟩

theorem find_root_go_checked_eq_some (f df : ℚ → ℚ) :
    ∀ (fuel : ℕ) (x : ℚ),
      find_root_go_checked f df x fuel = some (find_root_go f df x fuel).1 := by
  intro fuel
  induction fuel with
  | zero => intro x; rfl
  | succ n ih =>
    intro x
    simp only [find_root_go_checked, find_root_go]
    by_cases h1 : |df x| < tol
    · simp [h1]
    · have hne : df x ≠ 0 := by
        intro h0
        apply h1
        rw [h0, abs_zero]
        norm_num [tol]
      simp only [h1, if_false, div_checked, hne, ite_false]
      split_ifs with h2
      · rfl
      · exact ih (x - f x / df x)

/-- C9: the division `fx/dfx` in `find_root` is only reached when
`|dfx| ≥ 1e-10`, so its divisor is never zero — the run with every division
checked against a zero divisor never fails and agrees with `find_root` —
and whenever `|df(x)| < 1e-10` at an iterate `x`, the function stops before
dividing and silently returns that iterate. -/
theorem find_root_never_divides_by_zero (f df : ℚ → ℚ) (x0 : ℚ)
    (max_iter : ℤ) :
    find_root_checked f df x0 max_iter = some (find_root f df x0 max_iter) ∧
    (|df x0| < tol → find_root f df x0 max_iter = x0) := by
  constructor
  · unfold find_root_checked find_root
    exact find_root_go_checked_eq_some f df max_iter.toNat x0
  · intro hsmall
    unfold find_root
    cases hn : max_iter.toNat with
    | zero => rfl
    | succ n => simp [find_root_go, hsmall]

/-- Witness for C9: with `df = const 0` the derivative guard fires at once
and the initial guess is returned. -/
theorem find_root_never_divides_by_zero_witness :
    |(0 : ℚ)| < tol ∧ find_root (fun _ => 1) (fun _ => 0) 5 3 = 5 :=
  ⟨by norm_num [tol],
    (find_root_never_divides_by_zero (fun _ => 1) (fun _ => 0) 5 3).2
      (by norm_num [tol])⟩

/-- C1 fails on the code: with `f = const 1e-11`, `df = const 1`, `x0 = 0`
and `max_iter = 1`, the first iteration computes `x_new = 0 - 1e-11/1`,
the convergence test `|x_new - x| < 1e-10` holds, `x_new ≠ x`, and
`find_root` returns the previous iterate `0`, not `x_new`. -/
theorem find_root_converged_counterexample :
    |((0 : ℚ) - (1 / 10 ^ 11) / 1) - 0| < tol ∧
    (0 : ℚ) - (1 / 10 ^ 11) / 1 ≠ 0 ∧
    find_root (fun _ => 1 / 10 ^ 11) (fun _ => 1) 0 1 = 0 := by
  refine ⟨by norm_num [tol, abs_of_nonneg, abs_of_nonpos], by norm_num, ?_⟩
  norm_num [find_root, find_root_go, tol, abs_of_nonneg, abs_of_nonpos]

/-- C1 amended: whenever an iteration of `find_root` computes
`x_new = x - f(x)/df(x)` (the derivative guard having passed) and the
convergence test `|x_new - x| < 1e-10` holds, the function stops and
returns the PREVIOUS iterate `x` — the one at which the test was evaluated
— not `x_new`.  Stated for an arbitrary iterate `x` with at least one
iteration remaining, which covers every iteration of the loop. -/
theorem find_root_converged_returns_previous (f df : ℚ → ℚ) (x : ℚ)
    (fuel : ℕ) (hdf : tol ≤ |df x|) (hconv : |(x - f x / df x) - x| < tol) :
    find_root_go f df x (fuel + 1) = (x, 2) ∧
    find_root f df x ((fuel : ℤ) + 1) = x := by
  have hg : find_root_go f df x (fuel + 1) = (x, 2) := by
    simp only [find_root_go]
    rw [if_neg (not_lt.mpr hdf), if_pos hconv]
  refine ⟨hg, ?_⟩
  unfold find_root
  rw [show ((fuel : ℤ) + 1).toNat = fuel + 1 by omega, hg]

/-- Witness for the amended C1 at `f = const 1e-11`, `df = const 1`,
`x = 0`, one iteration. -/
theorem find_root_converged_returns_previous_witness :
    tol ≤ |(1 : ℚ)| ∧ |((0 : ℚ) - (1 / 10 ^ 11) / 1) - 0| < tol ∧
    find_root (fun _ => 1 / 10 ^ 11) (fun _ => 1) 0 1 = 0 :=
  ⟨by norm_num [tol, abs_of_nonneg],
    by norm_num [tol, abs_of_nonneg, abs_of_nonpos],
    (find_root_converged_returns_previous (fun _ => 1 / 10 ^ 11) (fun _ => 1)
      0 0 (by norm_num [tol, abs_of_nonneg])
      (by norm_num [tol, abs_of_nonneg, abs_of_nonpos])).2⟩

/-! ### Validation and invocation-primitive theorems -/

/-- C4: `call_with_validation(f, v)` returns the sentinel `-1.0` when the
callback result is NaN or infinite, and otherwise returns the callback
result unchanged; in particular a callback returning a finite value `w`
yields exactly `w`. -/
theorem call_with_validation_spec (callback : FpVal → FpVal) (value : FpVal) :
    (((callback value).isnan = true ∨ (callback value).isinf = true) →
      call_with_validation callback value = FpVal.finite (-1)) ∧
    (((callback value).isnan = false ∧ (callback value).isinf = false) →
      call_with_validation callback value = callback value) ∧
    (∀ w : ℚ, callback value = FpVal.finite w →
      call_with_validation callback value = FpVal.finite w) := by
  unfold call_with_validation
  cases h : callback value <;>
    simp_all [FpVal.isnan, FpVal.isinf]

/-- Witness for C4: a NaN-returning callback yields the sentinel, and a
finite-returning callback passes through. -/
theorem call_with_validation_spec_witness :
    FpVal.isnan ((fun _ => FpVal.nan) (FpVal.finite 0)) = true ∧
    call_with_validation (fun _ => FpVal.nan) (FpVal.finite 0) =
      FpVal.finite (-1) ∧
    call_with_validation (fun _ => FpVal.finite 7) (FpVal.finite 0) =
      FpVal.finite 7 :=
  ⟨rfl,
    (call_with_validation_spec (fun _ => FpVal.nan) (FpVal.finite 0)).1
      (Or.inl rfl),
    (call_with_validation_spec (fun _ => FpVal.finite 7) (FpVal.finite 0)).2.2
      7 rfl⟩

/-- C8: the invocation primitives are pass-throughs that invoke the
callback exactly once (their invocation trace is the singleton argument
list): `call_with_double(f, v) = f(v)` and
`call_with_two_doubles(g, a, b) = g(a, b)`; at the reference test callbacks,
`call_with_two_doubles(add, 15, 27) = 42` and
`call_with_double(double_it, 21) = 42`. -/
theorem invocation_primitives_pass_through (f : ℚ → ℚ) (v : ℚ)
    (g : ℚ → ℚ → ℚ) (a b : ℚ) :
    (call_with_double f v).1 = f v ∧
    (call_with_double f v).2 = [v] ∧
    (call_with_two_doubles g a b).1 = g a b ∧
    (call_with_two_doubles g a b).2 = [(a, b)] ∧
    (call_with_two_doubles test_add_function 15 27).1 = 42 ∧
    (call_with_double test_double_function 21).1 = 42 := by
  refine ⟨rfl, rfl, rfl, rfl, ?_, ?_⟩ <;>
    norm_num [call_with_double, call_with_two_doubles, test_add_function,
      test_double_function]

end CCallbackExample
